import Mathlib

/-!
# Mobile-Sensors: verification of the sensor relay core

Shallow embedding of the Mobile-Sensors repository's core logic:

* the JSON wire values exchanged by all transports (`Json`),
* the packet codec `parseSensorMessage` (lib/types.ts),
* the in-memory polling store with its `POST`/`GET` handlers
  (app/api/sensor/route.ts),
* the WebSocket broadcast relay (server.mjs),
* the client connection manager (lib/useWebSocket.ts),
* the low-pass filter used for smoothing (mobile page / pc page).

JavaScript numbers are modelled as rationals (no arithmetic performed by the
embedded code ever leaves ℚ), `undefined` as `Option.none`, and JS object
field access as lookup in an association list.
-/

/-- A JSON value as produced by `JSON.parse`. Numbers are modelled as
rationals. -/
inductive Json : Type
  | null : Json
  | bool : Bool → Json
  | num : ℚ → Json
  | str : String → Json
  | arr : List Json → Json
  | obj : List (String × Json) → Json

mutual

/-- Structural equality test on JSON values (used for store keys; on the
primitive keys reachable in this code base it agrees with the `Map` key
equality of JavaScript). -/
def Json.beq : Json → Json → Bool
  | Json.null, Json.null => true
  | Json.bool a, Json.bool b => a == b
  | Json.num a, Json.num b => a == b
  | Json.str a, Json.str b => a == b
  | Json.arr xs, Json.arr ys => Json.beqList xs ys
  | Json.obj xs, Json.obj ys => Json.beqFieldList xs ys
  | _, _ => false

/-- Elementwise `Json.beq` on lists. -/
def Json.beqList : List Json → List Json → Bool
  | [], [] => true
  | x :: xs, y :: ys => Json.beq x y && Json.beqList xs ys
  | _, _ => false

/-- Elementwise `Json.beq` on field lists. -/
def Json.beqFieldList : List (String × Json) → List (String × Json) → Bool
  | [], [] => true
  | (k, v) :: xs, (l, w) :: ys => k == l && Json.beq v w && Json.beqFieldList xs ys
  | _, _ => false

end

instance : BEq Json := ⟨Json.beq⟩

/-- Field lookup on a JSON object's field list; as in `JSON.parse`, the last
occurrence of a duplicated key wins. `none` models JavaScript `undefined`. -/
def jget (fields : List (String × Json)) (k : String) : Option Json :=
  ((fields.filter (fun p => p.1 == k)).getLast?).map (fun p => p.2)

/-- JavaScript property access `v.k`: a field lookup on objects, `undefined`
on every other value (access on `null` is treated separately where the code
can reach it, since there it throws). -/
def jsProp : Json → String → Option Json
  | Json.obj fields, k => jget fields k
  | _, _ => none

/-- JavaScript truthiness of a possibly-`undefined` value: `undefined`,
`null`, `false`, `0` and `""` are falsy, everything else is truthy. -/
def truthy : Option Json → Bool
  | none => false
  | some Json.null => false
  | some (Json.bool b) => b
  | some (Json.num q) => q != 0
  | some (Json.str s) => s != ""
  | some (Json.arr _) => true
  | some (Json.obj _) => true

/-- JavaScript nullish coalescing `v ?? 0`: `undefined` and `null` collapse
to the number `0`, everything else passes through. -/
def jsOrZero : Option Json → Json
  | none => Json.num 0
  | some Json.null => Json.num 0
  | some v => v

/-!
## Packet codec (lib/types.ts, `parseSensorMessage`)

The parser runs entirely inside a `try`/`catch`, so at runtime it can only
return an object or `null`; the result object is built as
`{ pitch: msg.pitch, fire: msg.fire }`, where each field is whatever value
(possibly `undefined`) the parsed object carries.  `RawPacket` captures that
runtime result: `none` in a field models `undefined`.
-/

/-- Runtime shape of a non-`null` `parseSensorMessage` result: the raw values
copied out of the parsed object, `none` when the field was absent. -/
structure RawPacket where
  pitch : Option Json
  fire : Option Json

/-- `"type" in msg && msg.type === "state"`. -/
def isStateTag : Option Json → Bool
  | some (Json.str s) => s == "state"
  | _ => false

/-- `parseSensorMessage` (lib/types.ts).  The argument is the outcome of
`JSON.parse(data)`: `none` when parsing threw.  On a non-object value the
`in` operator throws a `TypeError` (arrays are objects but carry none of the
looked-up keys), which the surrounding `catch` turns into `null`; no
exception escapes. -/
def parseSensorMessage (data : Option Json) : Option RawPacket :=
  match data with
  | none => none
  | some (Json.obj fields) =>
      if isStateTag (jget fields "type") then
        some ⟨jget fields "pitch", jget fields "fire"⟩
      else if (jget fields "pitch").isSome && (jget fields "fire").isSome then
        some ⟨jget fields "pitch", jget fields "fire"⟩
      else
        none
  | some _ => none

/-- A well-formed control sample: a numeric pitch and a 0/1 trigger state
(`SensorPacket` in lib/types.ts). -/
structure SensorPacket where
  pitch : ℚ
  fire : Fin 2

/-- Modelled from the spec: the repository has no standalone `encode`
function (the mobile page inlines its POST body and nothing under src/ emits
the tagged shape), so the canonical untagged wire form follows §4.2/§6 of
the spec: a flat object with numeric `pitch` and integer `fire`. -/
def encodeUntagged (s : SensorPacket) : Json :=
  Json.obj [("pitch", Json.num s.pitch), ("fire", Json.num (s.fire.val : ℚ))]

/-- Modelled from the spec: the tagged wire form
`{"type":"state","pitch":…,"fire":…}` of §4.2/§6; no encoder for it exists
under src/. -/
def encodeTagged (s : SensorPacket) : Json :=
  Json.obj [("type", Json.str "state"),
            ("pitch", Json.num s.pitch), ("fire", Json.num (s.fire.val : ℚ))]

/-- The runtime packet that faithfully represents a well-formed sample. -/
def packetOf (s : SensorPacket) : RawPacket :=
  ⟨some (Json.num s.pitch), some (Json.num (s.fire.val : ℚ))⟩

/-!
## Polling store (app/api/sensor/route.ts)

The store is a JavaScript `Map` from room keys to `SensorData` records,
modelled as an association list (insertion order preserved, `set` updates in
place).  Times are `Date.now()` values, modelled as integers.
-/

/-- A stored entry: the shape `{ pitch, fire, timestamp }` built by `POST`.
`pitch` and `fire` keep the raw JSON values the body carried (the handler
performs no type validation). -/
structure SensorData where
  pitch : Json
  fire : Json
  timestamp : ℤ

/-- The store map. -/
def Store := List (Json × SensorData)

/-- `Map.get`. -/
def mapGet (m : List (Json × SensorData)) (k : Json) : Option SensorData :=
  (m.find? (fun p => p.1 == k)).map (fun p => p.2)

/-- `Map.set`: updates the existing entry in place, otherwise appends. -/
def mapSet (m : List (Json × SensorData)) (k : Json) (v : SensorData) :
    List (Json × SensorData) :=
  if (m.find? (fun p => p.1 == k)).isSome then
    m.map (fun p => if p.1 == k then (k, v) else p)
  else
    m ++ [(k, v)]

/-- `cleanOldData`: delete every entry with `now - data.timestamp > 5000`. -/
def cleanOldData (m : List (Json × SensorData)) (now : ℤ) :
    List (Json × SensorData) :=
  m.filter (fun p => decide (now - p.2.timestamp ≤ 5000))

/-- The room key chosen by `POST`: `body.room || "default"`. -/
def roomKey (body : Json) : Json :=
  if truthy (jsProp body "room") then (jsProp body "room").getD Json.null
  else Json.str "default"

/-- Outcome of a `POST` call: HTTP status, response body, updated store. -/
structure PostResult where
  status : ℕ
  body : Json
  store : List (Json × SensorData)

/-- `POST` handler.  The argument is the outcome of `request.json()`
(`none` when it threw).  Property access on JSON `null` throws, which the
`catch` turns into a 400 response; any other JSON value is accepted, with
missing `room`/`pitch`/`fire` defaulted. -/
def post (body : Option Json) (store : List (Json × SensorData)) (now : ℤ) :
    PostResult :=
  match body with
  | none => ⟨400, Json.obj [("error", Json.str "Invalid data")], store⟩
  | some Json.null => ⟨400, Json.obj [("error", Json.str "Invalid data")], store⟩
  | some b =>
      let entry : SensorData :=
        ⟨jsOrZero (jsProp b "pitch"), jsOrZero (jsProp b "fire"), now⟩
      ⟨200, Json.obj [("ok", Json.bool true)],
        cleanOldData (mapSet store (roomKey b) entry) now⟩

/-- The room used by `GET`: `url.searchParams.get("room") || "default"`
(`none` models an absent query parameter, and the empty string is falsy). -/
def roomOf : Option String → String
  | none => "default"
  | some s => if s == "" then "default" else s

/-- `GET` handler: the JSON body returned for a given room query parameter
(`none` when the `room` query parameter is absent) at read time `now`.  Both
branches respond with status 200. -/
def getHandler (store : List (Json × SensorData)) (roomParam : Option String)
    (now : ℤ) : Json :=
  match mapGet store (Json.str (roomOf roomParam)) with
  | none =>
      Json.obj [("pitch", Json.num 0), ("fire", Json.num 0),
                ("connected", Json.bool false)]
  | some data =>
      if now - data.timestamp > 2000 then
        Json.obj [("pitch", Json.num 0), ("fire", Json.num 0),
                  ("connected", Json.bool false)]
      else
        Json.obj [("pitch", data.pitch), ("fire", data.fire),
                  ("connected", Json.bool true)]

/-- The keys of a JSON object, in order. -/
def jsonKeys : Json → List String
  | Json.obj fields => fields.map (fun p => p.1)
  | _ => []

/-!
## Broadcast relay (server.mjs)

Connections are identified by an id; `readyState` gives each connection's
transport state (1 = OPEN, as in the `ws` library).  The `clients` set is a
duplicate-free list.  Handlers return the updated set together with the list
of transport actions they issue.
-/

/-- A transport action issued by a relay handler. -/
inductive WsAction : Type
  | send : ℕ → String → WsAction
  | terminate : ℕ → WsAction
  deriving DecidableEq

/-- The `message` handler: `for (client of clients) if (client !== ws &&
client.readyState === 1) client.send(msg)` — the sends issued, in set order. -/
def relayMessage (clients : List ℕ) (readyState : ℕ → ℕ) (sender : ℕ)
    (msg : String) : List WsAction :=
  (clients.filter (fun c => c != sender && readyState c == 1)).map
    (fun c => WsAction.send c msg)

/-- The `close` handler: `clients.delete(ws)`; no transport action. -/
def relayClose (clients : List ℕ) (c : ℕ) : List ℕ × List WsAction :=
  (clients.erase c, [])

/-- The `error` handler: logs and runs `clients.delete(ws)`; it issues no
transport action (in particular it never terminates or closes the socket). -/
def relayError (clients : List ℕ) (c : ℕ) : List ℕ × List WsAction :=
  (clients.erase c, [])

/-!
## Connection manager (lib/useWebSocket.ts)

`connect` first preempts any existing connection (close + clear the ref),
then validates the scheme, then opens a new handle.  Handles are numbered by
`nextId`; `closedHandles` logs every handle on which `.close()` was called.
-/

/-- `ConnectionStatus` (lib/useWebSocket.ts). -/
inductive ConnectionStatus : Type
  | disconnected
  | connecting
  | connected
  deriving DecidableEq

/-- The connection manager's state: the `status` React state, the
`wsRef.current` handle, the log of closed handles, and a fresh-id counter. -/
structure WsState where
  status : ConnectionStatus
  handle : Option ℕ
  closedHandles : List ℕ
  nextId : ℕ
  deriving DecidableEq

/-- The scheme check `url.startsWith("wss://")`, modelled on the character
lists underlying both strings. -/
def startsWithWss (url : String) : Bool :=
  List.isPrefixOf ("wss://".data) url.data

/-- `connect(url)`: close and clear any existing handle, reject non-`wss://`
addresses by returning early, otherwise set status to `connecting` and open
a fresh handle. -/
def connect (st : WsState) (url : String) : WsState :=
  let st1 : WsState :=
    match st.handle with
    | some h => { st with handle := none, closedHandles := st.closedHandles ++ [h] }
    | none => st
  if !startsWithWss url then st1
  else
    { st1 with status := ConnectionStatus.connecting,
               handle := some st1.nextId, nextId := st1.nextId + 1 }

/-!
## Low-pass filter (mobile page / pc page)

`class LowPassFilter { private value = 0; filter(input) { this.value +=
this.alpha * (input - this.value); return this.value; } }` — the running
value starts at 0; there is no seeding on the first call.
-/

/-- The low-pass filter's state: the running value and the smoothing
coefficient. -/
structure LowPassFilter where
  value : ℚ
  alpha : ℚ

/-- `new LowPassFilter(smoothing)`: `private value = 0`. -/
def LowPassFilter.new (smoothing : ℚ) : LowPassFilter :=
  ⟨0, smoothing⟩

/-- One `filter(input)` call: the updated state and the returned value. -/
def LowPassFilter.step (f : LowPassFilter) (input : ℚ) : LowPassFilter × ℚ :=
  let v := f.value + f.alpha * (input - f.value)
  (⟨v, f.alpha⟩, v)

/-- State after `n` successive `filter(input)` calls with the same input. -/
def LowPassFilter.iterApply (f : LowPassFilter) (input : ℚ) : ℕ → LowPassFilter
  | 0 => f
  | n + 1 => ((f.iterApply input n).step input).1

/-!
## Helper lemmas
-/

/-- Prepending a field with a different key does not change a lookup. -/
theorem jget_cons_ne (k' k : String) (v : Json) (fs : List (String × Json))
    (h : (k' == k) = false) : jget ((k', v) :: fs) k = jget fs k := by
  simp [jget, List.filter_cons, h]

/-- Every response of the read handler is an object with exactly the three
fields pitch, fire, connected, in that order. -/
theorem getHandler_shape (store : List (Json × SensorData))
    (roomParam : Option String) (now : ℤ) :
    ∃ p f c, getHandler store roomParam now =
      Json.obj [("pitch", p), ("fire", f), ("connected", Json.bool c)] := by
  unfold getHandler
  cases mapGet store (Json.str (roomOf roomParam)) with
  | none => exact ⟨_, _, _, rfl⟩
  | some data =>
      by_cases h : now - data.timestamp > 2000
      · refine ⟨Json.num 0, Json.num 0, false, ?_⟩
        simp [h]
      · refine ⟨data.pitch, data.fire, true, ?_⟩
        simp [h]

/-- The smoothing coefficient is preserved across filter calls. -/
theorem LowPassFilter.iterApply_alpha (f : LowPassFilter) (input : ℚ) :
    ∀ n : ℕ, (f.iterApply input n).alpha = f.alpha := by
  intro n
  induction n with
  | zero => rfl
  | succ n ih => simp [LowPassFilter.iterApply, LowPassFilter.step, ih]

/-!
## Claims
-/

/-- Claim C3 (code evaluated at the failing input): on the tagged payload
that is missing both the pitch and the fire field, parseSensorMessage does
not return the null sentinel; it returns a packet whose two fields are both
undefined.  (The tagged branch copies the fields without checking their
presence; the untagged branch does check.) -/
theorem parseSensorMessage_tagged_missing_fields :
    parseSensorMessage (some (Json.obj [("type", Json.str "state")])) =
      some ⟨none, none⟩ ∧
    parseSensorMessage (some (Json.obj [("type", Json.str "state")])) ≠ none := by
  refine ⟨rfl, ?_⟩
  intro h
  rw [show parseSensorMessage (some (Json.obj [("type", Json.str "state")])) =
        some ⟨none, none⟩ from rfl] at h
  exact Option.noConfusion h

/-- Claim C4, counterexample: a low-pass filter with coefficient 2/5 returns
2/5 of the first raw input on the first call, not the raw input itself — the
running value starts at 0 and is never seeded. -/
theorem lowPassFilter_first_call_not_seeded :
    ((LowPassFilter.new (2/5)).step 10).2 = 4 ∧
    ((LowPassFilter.new (2/5)).step 10).2 ≠ 10 := by
  constructor
  · show (0 + 2/5 * (10 - 0 : ℚ)) = 4
    norm_num
  · show (0 + 2/5 * (10 - 0 : ℚ)) ≠ 10
    norm_num

/-- Claim C4 as amended: the output of the first filter call is the
smoothing coefficient times the first raw input (the running value starts at
0); it equals the raw input itself only when the coefficient is 1 or the
input is 0. -/
theorem lowPassFilter_first_output (a input : ℚ) :
    ((LowPassFilter.new a).step input).2 = a * input := by
  show 0 + a * (input - 0) = a * input
  ring

/-- Claim C5, counterexample: connect on a non-wss address is not a no-op
when a connection handle exists — the handle is closed and cleared before
the scheme check runs, so the state changes. -/
theorem connect_insecure_clears_handle :
    connect ⟨ConnectionStatus.connected, some 7, [], 8⟩ "ws://relay.example" =
      ⟨ConnectionStatus.connected, none, [7], 8⟩ ∧
    (⟨ConnectionStatus.connected, none, [7], 8⟩ : WsState) ≠
      ⟨ConnectionStatus.connected, some 7, [], 8⟩ := by
  exact ⟨rfl, by decide⟩

/-- Claim C5 as amended: for every address that does not start with wss://,
connect initiates no new connection and leaves the status unchanged, but it
first closes and clears any existing connection handle (the preemption step
runs before the scheme validation). -/
theorem connect_insecure_no_new_connection (st : WsState) (url : String)
    (h : startsWithWss url = false) :
    connect st url =
      { st with handle := none,
                closedHandles := st.closedHandles ++ st.handle.toList } := by
  obtain ⟨stat, hd, ch, ni⟩ := st
  cases hd with
  | none => simp [connect, h]
  | some v => simp [connect, h]

/-- Witness for the amended claim C5 at a concrete state and address. -/
theorem connect_insecure_no_new_connection_witness :
    (startsWithWss "ws://x" = false) ∧
    connect ⟨ConnectionStatus.connected, some 7, [], 8⟩ "ws://x" =
      ⟨ConnectionStatus.connected, none, [7], 8⟩ :=
  ⟨by decide, connect_insecure_no_new_connection
    ⟨ConnectionStatus.connected, some 7, [], 8⟩ "ws://x" (by decide)⟩

/-- Claim C6: decoding the encoded wire form yields the same sample back,
for both the tagged and the untagged wire shapes, and two distinct
well-formed samples never decode to the same packet. -/
theorem parseSensorMessage_roundTrip (s : SensorPacket) :
    parseSensorMessage (some (encodeTagged s)) = some (packetOf s) ∧
    parseSensorMessage (some (encodeUntagged s)) = some (packetOf s) ∧
    ∀ t : SensorPacket, packetOf s = packetOf t → s = t := by
  refine ⟨rfl, rfl, ?_⟩
  intro t h
  obtain ⟨sp, sf⟩ := s
  obtain ⟨tp, tf⟩ := t
  simp only [packetOf, RawPacket.mk.injEq, Option.some.injEq, Json.num.injEq] at h
  obtain ⟨h1, h2⟩ := h
  have : (sf : Fin 2) = tf := Fin.val_injective (Nat.cast_inj.mp h2)
  simp [h1, this]

/-- Claim C8, counterexample: the error handler removes the connection from
the set but issues no transport action at all — in particular it never
terminates (forces closed) the failed connection. -/
theorem relayError_no_terminate :
    relayError [5] 5 = ([], []) ∧
    WsAction.terminate 5 ∉ (relayError [5] 5).2 := by
  exact ⟨rfl, by simp [relayError]⟩

/-- Claim C8 as amended: a transport error on a connection removes exactly
that connection from the active set, with no retry and also no explicit
termination — the handler issues no transport action. -/
theorem relayError_removes_only (clients : List ℕ) (c : ℕ)
    (h : clients.Nodup) :
    c ∉ (relayError clients c).1 ∧
    (∀ x ∈ clients, x ≠ c → x ∈ (relayError clients c).1) ∧
    (relayError clients c).2 = [] := by
  refine ⟨h.not_mem_erase, ?_, rfl⟩
  intro x hx hne
  exact (List.mem_erase_of_ne hne).mpr hx

/-- Witness for the amended claim C8 at a concrete connection set. -/
theorem relayError_removes_only_witness :
    5 ∉ (relayError [4, 5] 5).1 ∧ 4 ∈ (relayError [4, 5] 5).1 ∧
    (relayError [4, 5] 5).2 = [] := by
  have h := relayError_removes_only [4, 5] 5 (by decide)
  exact ⟨h.1, h.2.1 4 (by decide) (by decide), h.2.2⟩

/-- Claim C9, counterexample: the body consisting of the empty JSON object
is malformed under the accepted shape (pitch and fire are missing), yet the
write handler acknowledges it with status 200 and an ok body instead of a
4xx client error. -/
theorem post_empty_object_acknowledged :
    (post (some (Json.obj [])) [] 0).status = 200 ∧
    (post (some (Json.obj [])) [] 0).body = Json.obj [("ok", Json.bool true)] := by
  exact ⟨rfl, rfl⟩

/-- Claim C9 as amended: a body matching the accepted shape is acknowledged
and room defaults to the default room when absent, but the only bodies that
yield the 400 client error are those on which body parsing or property
access throws (unparseable input and JSON null); every other JSON body —
including ones missing pitch or fire — is acknowledged with the missing
fields defaulted to 0, and the store is updated accordingly. -/
theorem post_validation (body : Option Json) (store : List (Json × SensorData))
    (now : ℤ) :
    ((body = none ∨ body = some Json.null) →
       (post body store now).status = 400 ∧ (post body store now).store = store) ∧
    (∀ b, body = some b → b ≠ Json.null →
       (post body store now).status = 200 ∧
       (post body store now).body = Json.obj [("ok", Json.bool true)] ∧
       (post body store now).store =
         cleanOldData (mapSet store (roomKey b)
           ⟨jsOrZero (jsProp b "pitch"), jsOrZero (jsProp b "fire"), now⟩) now) ∧
    (∀ fields, jget fields "room" = none →
       roomKey (Json.obj fields) = Json.str "default") := by
  refine ⟨?_, ?_, ?_⟩
  · rintro (rfl | rfl) <;> exact ⟨rfl, rfl⟩
  · rintro b rfl hb
    cases b with
    | null => exact absurd rfl hb
    | bool v => exact ⟨rfl, rfl, rfl⟩
    | num v => exact ⟨rfl, rfl, rfl⟩
    | str v => exact ⟨rfl, rfl, rfl⟩
    | arr v => exact ⟨rfl, rfl, rfl⟩
    | obj v => exact ⟨rfl, rfl, rfl⟩
  · intro fields hf
    simp [roomKey, jsProp, hf, truthy]

/-- Witness for the amended claim C9: a parse failure is rejected with 400,
and a well-formed body without a room field is acknowledged and stored under
the default room. -/
theorem post_validation_witness :
    (post none [] 0).status = 400 ∧
    (post (some (Json.obj [("pitch", Json.num 3), ("fire", Json.num 1)])) [] 0).status = 200 ∧
    roomKey (Json.obj [("pitch", Json.num 3), ("fire", Json.num 1)]) = Json.str "default" := by
  have h1 := post_validation none [] 0
  have h2 := post_validation (some (Json.obj [("pitch", Json.num 3), ("fire", Json.num 1)])) [] 0
  refine ⟨(h1.1 (Or.inl rfl)).1, ?_, ?_⟩
  · exact (h2.2.1 (Json.obj [("pitch", Json.num 3), ("fire", Json.num 1)]) rfl
      (fun hx => Json.noConfusion hx)).1
  · exact h2.2.2 [("pitch", Json.num 3), ("fire", Json.num 1)] rfl

/-- Claim C10: every read response is an object with exactly the keys
pitch, fire, connected — roll is never present — and the write handler
discards a roll field entirely: a body with a roll field produces exactly
the same result (response and stored state) as the same body without it. -/
theorem getHandler_no_roll (store : List (Json × SensorData))
    (roomParam : Option String) (now : ℤ) :
    jsonKeys (getHandler store roomParam now) = ["pitch", "fire", "connected"] ∧
    jsProp (getHandler store roomParam now) "roll" = none ∧
    ∀ (v : Json) (fields : List (String × Json))
      (store' : List (Json × SensorData)) (t : ℤ),
      post (some (Json.obj (("roll", v) :: fields))) store' t =
        post (some (Json.obj fields)) store' t := by
  obtain ⟨p, f, c, hshape⟩ := getHandler_shape store roomParam now
  refine ⟨by rw [hshape]; rfl, by rw [hshape]; rfl, ?_⟩
  intro v fields store' t
  have hroom : jget (("roll", v) :: fields) "room" = jget fields "room" :=
    jget_cons_ne _ _ _ _ (by decide)
  have hpitch : jget (("roll", v) :: fields) "pitch" = jget fields "pitch" :=
    jget_cons_ne _ _ _ _ (by decide)
  have hfire : jget (("roll", v) :: fields) "fire" = jget fields "fire" :=
    jget_cons_ne _ _ _ _ (by decide)
  show (⟨200, Json.obj [("ok", Json.bool true)], _⟩ : PostResult) = ⟨200, _, _⟩
  simp only [roomKey, jsProp, hroom, hpitch, hfire]

/-- Claim C1: when the store holds an entry for the queried room, the read
handler reports connected exactly when the entry is at most 2000 ms old at
read time; in that case it returns the stored sample, and otherwise — even
though the entry is still physically present (not yet swept at the 5000 ms
retention threshold) — it returns the zero sample with connected false,
never the stale stored value. -/
theorem getHandler_freshness (store : List (Json × SensorData)) (room : String)
    (d : SensorData) (now : ℤ) (hroom : (room == "") = false)
    (h : mapGet store (Json.str room) = some d) :
    (jsProp (getHandler store (some room) now) "connected" =
        some (Json.bool true) ↔ now - d.timestamp ≤ 2000) ∧
    (now - d.timestamp ≤ 2000 →
       getHandler store (some room) now =
         Json.obj [("pitch", d.pitch), ("fire", d.fire),
                   ("connected", Json.bool true)]) ∧
    (now - d.timestamp > 2000 →
       getHandler store (some room) now =
         Json.obj [("pitch", Json.num 0), ("fire", Json.num 0),
                   ("connected", Json.bool false)]) := by
  have hr : roomOf (some room) = room := by simp [roomOf, hroom]
  have hobjF : jsProp (Json.obj [("pitch", Json.num 0), ("fire", Json.num 0),
      ("connected", Json.bool false)]) "connected" = some (Json.bool false) := rfl
  have hobjT : ∀ p f : Json, jsProp (Json.obj [("pitch", p), ("fire", f),
      ("connected", Json.bool true)]) "connected" = some (Json.bool true) :=
    fun p f => rfl
  unfold getHandler
  simp only [hr, h]
  by_cases ht : now - d.timestamp > 2000
  · rw [if_pos ht]
    refine ⟨iff_of_false ?_ (not_le.mpr ht),
            fun hle => absurd ht (not_lt.mpr hle), fun _ => rfl⟩
    rw [hobjF]
    intro hx
    injection hx with hx2
    injection hx2 with hx3
    exact Bool.noConfusion hx3
  · rw [if_neg ht]
    exact ⟨iff_of_true (hobjT d.pitch d.fire) (not_lt.mp ht),
           fun _ => rfl, fun hgt => absurd hgt ht⟩

/-- Witness for claim C1: a concrete entry read once within the freshness
window and once 500 ms past it. -/
theorem getHandler_freshness_witness :
    getHandler [(Json.str "default", ⟨Json.num 3, Json.num 1, 1000⟩)]
        (some "default") 1500 =
      Json.obj [("pitch", Json.num 3), ("fire", Json.num 1),
                ("connected", Json.bool true)] ∧
    getHandler [(Json.str "default", ⟨Json.num 3, Json.num 1, 1000⟩)]
        (some "default") 3500 =
      Json.obj [("pitch", Json.num 0), ("fire", Json.num 0),
                ("connected", Json.bool false)] := by
  have h1 := getHandler_freshness
    [(Json.str "default", ⟨Json.num 3, Json.num 1, 1000⟩)] "default"
    ⟨Json.num 3, Json.num 1, 1000⟩ 1500 (by decide) rfl
  have h2 := getHandler_freshness
    [(Json.str "default", ⟨Json.num 3, Json.num 1, 1000⟩)] "default"
    ⟨Json.num 3, Json.num 1, 1000⟩ 3500 (by decide) rfl
  exact ⟨h1.2.1 (by decide), h2.2.2 (by decide)⟩

/-- Claim C2: a message received from a sender is forwarded verbatim to
every other currently-open member of the active set — the sender never
receives it, every send the handler issues is the unchanged message to an
open non-sender member of the set, and each open non-sender member receives
it exactly once. -/
theorem relayMessage_fanout (clients : List ℕ) (readyState : ℕ → ℕ)
    (sender : ℕ) (msg : String) (hnd : clients.Nodup) :
    (∀ c m, WsAction.send c m ∈ relayMessage clients readyState sender msg →
       c ≠ sender ∧ m = msg ∧ c ∈ clients ∧ readyState c = 1) ∧
    (∀ m, WsAction.send sender m ∉ relayMessage clients readyState sender msg) ∧
    (∀ c, c ∈ clients → c ≠ sender → readyState c = 1 →
       (relayMessage clients readyState sender msg).count
         (WsAction.send c msg) = 1) := by
  refine ⟨?_, ?_, ?_⟩
  · intro c m hm
    simp only [relayMessage, List.mem_map, List.mem_filter] at hm
    obtain ⟨a, ⟨ha, hpred⟩, heq⟩ := hm
    obtain ⟨rfl, rfl⟩ : a = c ∧ msg = m := by
      have := WsAction.send.injEq a msg c m ▸ heq
      simpa using this
    simp only [Bool.and_eq_true, bne_iff_ne, ne_eq, beq_iff_eq] at hpred
    exact ⟨hpred.1, rfl, ha, hpred.2⟩
  · intro m hm
    simp only [relayMessage, List.mem_map, List.mem_filter] at hm
    obtain ⟨a, ⟨_, hpred⟩, heq⟩ := hm
    obtain ⟨rfl, -⟩ : a = sender ∧ msg = m := by
      have := WsAction.send.injEq a msg sender m ▸ heq
      simpa using this
    simp at hpred
  · intro c hc hne hrs
    have hinj : Function.Injective (fun c => WsAction.send c msg) := by
      intro a b hab
      simpa using hab
    show ((clients.filter _).map _).count _ = 1
    rw [List.count_map_of_injective _ _ hinj]
    refine List.count_eq_one_of_mem (hnd.filter _) ?_
    refine List.mem_filter.mpr ⟨hc, ?_⟩
    simp [hne, hrs]

/-- Witness for claim C2: three open connections, sender 0; client 1
receives the message exactly once and the sender receives nothing. -/
theorem relayMessage_fanout_witness :
    (relayMessage [0, 1, 2] (fun _ => 1) 0 "m").count (WsAction.send 1 "m") = 1 ∧
    (∀ m, WsAction.send 0 m ∉ relayMessage [0, 1, 2] (fun _ => 1) 0 "m") := by
  have h := relayMessage_fanout [0, 1, 2] (fun _ => 1) 0 "m" (by decide)
  exact ⟨h.2.2 1 (by decide) (by decide) rfl, h.2.1⟩

/-- Claim C7: for a smoothing coefficient strictly between 0 and 1, any
initial value and any constant input c, repeated application drives the
filter value to c monotonically and without overshoot — each successive
output lies between the previous output and c, the distance to c is exactly
the geometric sequence with ratio 1 - coefficient, and the output sequence
converges to c. -/
theorem lowPassFilter_constant_convergence (a v0 c : ℚ)
    (h0 : 0 < a) (h1 : a < 1) :
    (∀ n : ℕ,
       min ((LowPassFilter.iterApply ⟨v0, a⟩ c n).value) c ≤
         (LowPassFilter.iterApply ⟨v0, a⟩ c (n + 1)).value ∧
       (LowPassFilter.iterApply ⟨v0, a⟩ c (n + 1)).value ≤
         max ((LowPassFilter.iterApply ⟨v0, a⟩ c n).value) c) ∧
    (∀ n : ℕ, (LowPassFilter.iterApply ⟨v0, a⟩ c n).value - c =
       (1 - a) ^ n * (v0 - c)) ∧
    Filter.Tendsto (fun n : ℕ => (LowPassFilter.iterApply ⟨v0, a⟩ c n).value)
      Filter.atTop (nhds c) := by
  have halpha := LowPassFilter.iterApply_alpha ⟨v0, a⟩ c
  have hstep : ∀ n : ℕ, (LowPassFilter.iterApply ⟨v0, a⟩ c (n + 1)).value =
      (LowPassFilter.iterApply ⟨v0, a⟩ c n).value +
        a * (c - (LowPassFilter.iterApply ⟨v0, a⟩ c n).value) := by
    intro n
    show ((LowPassFilter.iterApply ⟨v0, a⟩ c n).step c).1.value = _
    simp [LowPassFilter.step, halpha n]
  have hgeom : ∀ n : ℕ, (LowPassFilter.iterApply ⟨v0, a⟩ c n).value - c =
      (1 - a) ^ n * (v0 - c) := by
    intro n
    induction n with
    | zero => simp [LowPassFilter.iterApply]
    | succ n ih =>
        rw [hstep n]
        have h2 : (LowPassFilter.iterApply ⟨v0, a⟩ c n).value +
            a * (c - (LowPassFilter.iterApply ⟨v0, a⟩ c n).value) - c =
            (1 - a) * ((LowPassFilter.iterApply ⟨v0, a⟩ c n).value - c) := by
          ring
        rw [h2, ih, pow_succ]
        ring
  refine ⟨?_, hgeom, ?_⟩
  · intro n
    rw [hstep n]
    rcases le_total ((LowPassFilter.iterApply ⟨v0, a⟩ c n).value) c with hle | hle
    · constructor
      · rw [min_eq_left hle]
        nlinarith
      · rw [max_eq_right hle]
        nlinarith
    · constructor
      · rw [min_eq_right hle]
        nlinarith
      · rw [max_eq_left hle]
        nlinarith
  · have hval : ∀ n : ℕ, (LowPassFilter.iterApply ⟨v0, a⟩ c n).value =
        c + (1 - a) ^ n * (v0 - c) := fun n => by linarith [hgeom n]
    simp only [hval]
    have hpow : Filter.Tendsto (fun n : ℕ => (1 - a) ^ n) Filter.atTop (nhds 0) :=
      tendsto_pow_atTop_nhds_zero_of_lt_one (by linarith) (by linarith)
    have hmul := (hpow.mul_const (v0 - c)).const_add c
    simpa using hmul

/-- Witness for claim C7 at coefficient 1/2, initial value 0, constant
input 1. -/
theorem lowPassFilter_constant_convergence_witness :
    (0 : ℚ) < 1 / 2 ∧ (1 : ℚ) / 2 < 1 ∧
    Filter.Tendsto
      (fun n : ℕ => (LowPassFilter.iterApply ⟨0, 1 / 2⟩ 1 n).value)
      Filter.atTop (nhds 1) ∧
    (LowPassFilter.iterApply ⟨0, 1 / 2⟩ 1 2).value - 1 =
      (1 - 1 / 2) ^ 2 * (0 - 1) := by
  have h := lowPassFilter_constant_convergence (1 / 2) 0 1 (by norm_num) (by norm_num)
  exact ⟨by norm_num, by norm_num, h.2.2, h.2.1 2⟩
